import Mathlib

/-!
Shallow embedding of the go-yaml migration tool and proofs about it.

The repository has two tool variants: `main.go`, the AST-based rewriter
(parse each `.go` file, rewrite matching import path literals, rewrite the
`require` entries of go.mod, guarded by a toolchain-version gate), and an
unnamed regex text-substitution variant. Pure Go standard-library helpers
(`strconv.Unquote`, `strconv.Atoi`, `strings.Split`, `strings.TrimSpace`)
are modelled executably on `List Char`. File-system effects are made
explicit: each processing function returns the list of writes it performs,
and fallible collaborators (the parser, the printer, `format.Source`,
`os.WriteFile`) are modelled as `Option`-valued inputs.
-/

namespace GoYamlMig

/-- Models Go `unicode.IsSpace` on the characters `strings.TrimSpace` trims
in the inputs at hand (ASCII whitespace plus the two Latin-1 spaces). -/
def isGoSpace (c : Char) : Bool :=
  c == ' ' || c == '\t' || c == '\n' || c == Char.ofNat 11 || c == Char.ofNat 12 ||
    c == '\r' || c == Char.ofNat 133 || c == Char.ofNat 160

/-- Drops leading whitespace characters. -/
def trimLeadSpace : List Char → List Char
  | [] => []
  | c :: rest => if isGoSpace c then trimLeadSpace rest else c :: rest

/-- Models Go `strings.TrimSpace`. -/
def goTrimChars (l : List Char) : List Char :=
  (trimLeadSpace ((trimLeadSpace l).reverse)).reverse

/-- Models Go `strings.Split` with a one-character separator. -/
def splitOnChar (sep : Char) : List Char → List (List Char)
  | [] => [[]]
  | c :: rest =>
    if c == sep then [] :: splitOnChar sep rest
    else
      match splitOnChar sep rest with
      | h :: t => (c :: h) :: t
      | [] => [[c]]

/-- Strips the pattern `p` from the front of `l`; models the
`strings.HasPrefix` check plus `strings.TrimPrefix`. -/
def stripLead : List Char → List Char → Option (List Char)
  | [], l => some l
  | _ :: _, [] => none
  | p :: ps, c :: cs => if c == p then stripLead ps cs else none

/-- Value of a non-empty all-digit character list. -/
def digitsVal (l : List Char) : Option Nat :=
  if l.isEmpty then none
  else if l.all Char.isDigit then
    some (l.foldl (fun a c => a * 10 + (c.toNat - 48)) 0)
  else none

/-- Models Go `strconv.Atoi`: optional sign, decimal digits, and an error
outside the 64-bit integer range. -/
def goAtoi (s : String) : Option Int :=
  let core : Option Int :=
    match s.data with
    | '+' :: ds => (digitsVal ds).map (fun n => (n : Int))
    | '-' :: ds => (digitsVal ds).map (fun n => -(n : Int))
    | ds => (digitsVal ds).map (fun n => (n : Int))
  match core with
  | some v => if -(2 ^ 63) ≤ v ∧ v < 2 ^ 63 then some v else none
  | none => none

/-- The `if v, err := strconv.Atoi(p); err == nil` idiom of `compareGo`: the
numeric value of a component, zero when the component is missing or
non-numeric. -/
def atoiOr0 (p : Option String) : Int :=
  match p with
  | some s => (goAtoi s).getD 0
  | none => 0

/-- Rejoins dot-separated pieces; used to model the last piece returned by
`strings.SplitN(s, ".", 3)`. -/
def joinDots : List (List Char) → List Char
  | [] => []
  | [x] => x
  | x :: y :: rest => x ++ '.' :: joinDots (y :: rest)

/-- Models Go `strings.SplitN(s, ".", 3)`. -/
def splitN3Dots (s : String) : List String :=
  match splitOnChar '.' s.data with
  | p0 :: p1 :: p2 :: rest =>
      [p0.asString, p1.asString, (joinDots (p2 :: rest)).asString]
  | ps => ps.map List.asString

/-- Embeds `compareGo` from `main.go` (lines 261-301): numeric comparison of
the major then the minor dotted component, a non-numeric component counting
as zero. -/
def compareGo (a b : String) : Int :=
  let pa := splitN3Dots a
  let pb := splitN3Dots b
  let ma := atoiOr0 pa[0]?
  let mb := atoiOr0 pb[0]?
  let miA := atoiOr0 pa[1]?
  let miB := atoiOr0 pb[1]?
  if ma ≠ mb then (if ma < mb then -1 else 1)
  else if miA ≠ miB then (if miA < miB then -1 else 1)
  else 0

/-- The numeric value of the i-th dotted component of a version string,
extracted exactly as `compareGo` extracts it. -/
def componentNum (v : String) (i : Nat) : Int :=
  atoiOr0 ((splitN3Dots v)[i]?)

/-- The characters of the `go ` directive marker. -/
def goDirChars : List Char := ['g', 'o', ' ']

/-- The line scan of `readGoVersion`: the first line whose trimmed form
starts with `go ` yields the trimmed remainder of that line. -/
def goVersionLines : List (List Char) → Option (List Char)
  | [] => none
  | ln :: rest =>
    match stripLead goDirChars (goTrimChars ln) with
    | some v => some (goTrimChars v)
    | none => goVersionLines rest

/-- Embeds `readGoVersion` (main.go lines 220-233); the argument is the
go.mod text, `none` when the file cannot be read. -/
def readGoVersion (content : Option String) : String :=
  match content with
  | none => "0.0"
  | some b =>
    match goVersionLines (splitOnChar '\n' b.data) with
    | some v => v.asString
    | none => "0.0"

/-- Embeds `modPathRe.FindStringSubmatch` for the anchored regular
expression of main.go line 29, `gopkg\.in/yaml\.v([234])` between `^` and
`$`: anchored at both ends it accepts exactly three whole strings, and the
result is the captured version digit. -/
def modPathReMatch (s : String) : Option String :=
  if s = "gopkg.in/yaml.v2" then some ("2")
  else if s = "gopkg.in/yaml.v3" then some ("3")
  else if s = "gopkg.in/yaml.v4" then some ("4")
  else none

/-- Splits off the last element of a list. -/
def splitLast : List Char → Option (List Char × Char)
  | [] => none
  | c :: rest =>
    match splitLast rest with
    | none => some ([], c)
    | some (p, l) => some (c :: p, l)

/-- The simple escape sequences of a Go quoted string literal; numeric and
unicode escapes are not modelled and conservatively fail. -/
def escChar (e : Char) : Option Char :=
  if e = 'a' then some (Char.ofNat 7)
  else if e = 'b' then some (Char.ofNat 8)
  else if e = 'f' then some (Char.ofNat 12)
  else if e = 'n' then some '\n'
  else if e = 'r' then some '\r'
  else if e = 't' then some '\t'
  else if e = 'v' then some (Char.ofNat 11)
  else if e = '\\' then some '\\'
  else if e = '\'' then some '\''
  else if e = '"' then some '"'
  else none

/-- Unquotes the body of a double-quoted Go string literal: escape pairs are
decoded, an unescaped double quote or a trailing backslash fails. -/
def unquoteEsc : List Char → Option (List Char)
  | [] => some []
  | c :: rest =>
    if c = '\\' then
      match rest with
      | [] => none
      | e :: rest2 =>
        match escChar e with
        | some ec => (unquoteEsc rest2).map (fun l => ec :: l)
        | none => none
    else if c = '"' then none
    else (unquoteEsc rest).map (fun l => c :: l)

/-- The backquote character. -/
def backq : Char := Char.ofNat 96

/-- Models Go `strconv.Unquote`: a matching delimiter pair, then for `"` the
escape-processed body, for `'` a body decoding to exactly one character, and
for a backquote the raw body (which may not itself contain a backquote). -/
def goUnquote (s : String) : Option String :=
  match s.data with
  | [] => none
  | q :: tail =>
    match splitLast tail with
    | none => none
    | some (body, lastc) =>
      if lastc = q then
        if q = '"' then (unquoteEsc body).map List.asString
        else if q = '\'' then
          match unquoteEsc body with
          | some [c] => some (String.mk [c])
          | _ => none
        else if q = backq then
          if body.all (fun c => !(c == backq)) then
            some ((body.filter (fun c => !(c == '\r'))).asString)
          else none
        else none
      else none

/-- Embeds `strconvUnquote` (main.go lines 236-241): a literal of length at
least two starting with a double or single quote goes through
`strconv.Unquote`; every other literal is returned verbatim with no error. -/
def strconvUnquote (s : String) : Option (String) :=
  if 2 ≤ s.data.length ∧ (s.data.head? = some '"' ∨ s.data.head? = some '\'') then
    goUnquote s
  else some s

/-- Embeds `strconvQuote` (main.go lines 244-246): wrap in double quotes. -/
def strconvQuote (s : String) : String := "\"" ++ s ++ "\""

/-- One import declaration of a parsed file, carrying `imp.Path.Value`: the
quoted string literal exactly as written in the source. -/
structure ImportSpec where
  pathValue : String
deriving DecidableEq

/-- The body of the import loop of `processGoFile` (main.go lines 122-137)
for one import: the possibly-rewritten import and whether it changed. -/
def rewriteImport (imp : ImportSpec) : ImportSpec × Bool :=
  match strconvUnquote imp.pathValue with
  | none => (imp, false)
  | some raw =>
    match modPathReMatch raw with
    | none => (imp, false)
    | some major =>
      let newPath := "go.yaml.in/yaml/v" ++ major
      if raw ≠ newPath then (ImportSpec.mk (strconvQuote newPath), true)
      else (imp, false)

/-- The import loop of `processGoFile` over the whole import list, together
with the accumulated `changed` flag. -/
def rewriteImports : List ImportSpec → List ImportSpec × Bool
  | [] => ([], false)
  | imp :: rest =>
    ((rewriteImport imp).1 :: (rewriteImports rest).1,
      (rewriteImport imp).2 || (rewriteImports rest).2)

/-- A parsed Go source file as `processGoFile` sees it: the import
declarations it iterates, and the parts it never iterates (comments and
string literals occurring in the file body, kept abstractly). -/
structure GoAst where
  imports : List ImportSpec
  comments : List String
  bodyStrings : List String
deriving DecidableEq

/-- One `require` entry of the parsed go.mod, after `modfile.Require`:
module path, version string and the indirect marker. -/
structure Require where
  path : String
  version : String
  indirect : Bool
deriving DecidableEq

/-- The body of the require loop of `processGoMod` (main.go lines 180-190)
for one entry. -/
def rewriteRequire (r : Require) : Require × Bool :=
  match modPathReMatch r.path with
  | none => (r, false)
  | some major =>
    let newPath := "go.yaml.in/yaml/v" ++ major
    if r.path ≠ newPath then ({ r with path := newPath }, true)
    else (r, false)

/-- The require loop of `processGoMod` over the whole list. -/
def rewriteRequires : List Require → List Require × Bool
  | [] => ([], false)
  | r :: rest =>
    ((rewriteRequire r).1 :: (rewriteRequires rest).1,
      (rewriteRequire r).2 || (rewriteRequires rest).2)

/-- A write to storage performed by the tool. -/
inductive Event where
  | writeGoFile (path : String) (content : String)
  | writeGoMod (entries : List Require)
deriving DecidableEq

/-- A candidate `.go` file fed to `processGoFile`: its path and its parse
result, `none` modelling a `parser.ParseFile` error. -/
structure SrcFile where
  path : String
  ast : Option GoAst
deriving DecidableEq

/-- The project's go.mod: its raw text (read by `readGoVersion`) and its
`modfile.Parse` result, `none` modelling a read or parse error. -/
structure GoModFile where
  raw : String
  parsed : Option (List Require)
deriving DecidableEq

/-- The project tree as the walk delivers it: candidate `.go` files in visit
order, and the optional go.mod. -/
structure Project where
  goFiles : List SrcFile
  goMod : Option GoModFile
deriving DecidableEq

/-- Embeds `processGoFile` (main.go lines 112-165). `pr` models
`printer.Config.Fprint` on the rewritten tree (`none` is an error), `fm`
models `format.Source` (`none` is an error, which triggers the fallback to
the raw printer output), and `writeOk` tells whether `os.WriteFile` succeeds
on a path. The result is the `(changed, error)` outcome of the source
function paired with the write performed, if any. -/
def processGoFile (pr : GoAst → Option String) (fm : String → Option String)
    (dryRun : Bool) (writeOk : String → Bool) (f : SrcFile) :
    Except String (Bool × List Event) :=
  match f.ast with
  | none => Except.error ("parse file")
  | some ast =>
    if (rewriteImports ast.imports).2 then
      match pr { ast with imports := (rewriteImports ast.imports).1 } with
      | none => Except.error ("printing AST")
      | some buf =>
        let formatted :=
          match fm buf with
          | some out => out
          | none => buf
        if dryRun then Except.ok (true, [])
        else if writeOk f.path then
          Except.ok (true, [Event.writeGoFile f.path formatted])
        else Except.error ("write file")
    else Except.ok (false, [])

/-- Embeds `processGoMod` (main.go lines 168-208); the write carries the
rewritten require list, the input of the `modfile.Format` serialization. -/
def processGoMod (dryRun : Bool) (writeOk : String → Bool) (gm : GoModFile) :
    Except String (List Event) :=
  match gm.parsed with
  | none => Except.error ("parse go.mod")
  | some reqs =>
    if (rewriteRequires reqs).2 then
      if dryRun then Except.ok []
      else if writeOk ("go.mod") then
        Except.ok [Event.writeGoMod (rewriteRequires reqs).1]
      else Except.error ("write go.mod")
    else Except.ok []

/-- Outcome of the directory walk: the path of the file where the walk
aborted (if any), the files visited, and the writes performed. -/
structure WalkOut where
  errored : Option String
  visited : List String
  writes : List Event
deriving DecidableEq

/-- The `filepath.WalkDir` pass of `main` over the candidate `.go` files:
`visit` (main.go lines 79-108) on each file in order, stopping at the first
error. -/
def walkFiles (pr : GoAst → Option String) (fm : String → Option String)
    (dryRun : Bool) (writeOk : String → Bool) : List SrcFile → WalkOut
  | [] => { errored := none, visited := [], writes := [] }
  | f :: rest =>
    match processGoFile pr fm dryRun writeOk f with
    | Except.error _ =>
        { errored := some f.path, visited := [f.path], writes := [] }
    | Except.ok (_, evs) =>
        let w := walkFiles pr fm dryRun writeOk rest
        { errored := w.errored, visited := f.path :: w.visited,
          writes := evs ++ w.writes }

/-- Aggregate outcome of one run of the tool. -/
structure RunOutcome where
  exitCode : Nat
  visited : List String
  writes : List Event
deriving DecidableEq

/-- The post-gate part of `main` (lines 50-76): the walk, then
`processGoMod` when go.mod exists; a walk error or a go.mod error exits
with code 1 (and a walk error skips go.mod processing). -/
def runBody (pr : GoAst → Option String) (fm : String → Option String)
    (dryRun : Bool) (writeOk : String → Bool) (p : Project) : RunOutcome :=
  let w := walkFiles pr fm dryRun writeOk p.goFiles
  match w.errored with
  | some _ => { exitCode := 1, visited := w.visited, writes := w.writes }
  | none =>
    match p.goMod with
    | none => { exitCode := 0, visited := w.visited, writes := w.writes }
    | some gm =>
      match processGoMod dryRun writeOk gm with
      | Except.error _ =>
          { exitCode := 1, visited := w.visited, writes := w.writes }
      | Except.ok evs =>
          { exitCode := 0, visited := w.visited, writes := w.writes ++ evs }

/-- Embeds `main` (main.go lines 35-76): the toolchain-version gate against
`1.22`, then `runBody`. The external `go mod tidy` step writes nothing in
the modelled state and its failure does not change the exit code. -/
def runTool (pr : GoAst → Option String) (fm : String → Option String)
    (dryRun : Bool) (writeOk : String → Bool) (p : Project) : RunOutcome :=
  if compareGo (readGoVersion (p.goMod.map GoModFile.raw)) ("1.22") < 0 then
    { exitCode := 1, visited := [], writes := [] }
  else runBody pr fm dryRun writeOk p

/-- The characters of the deprecated module path root. -/
def deprRootChars : List Char := "gopkg.in/yaml.v".data

/-- A match of the unanchored pattern `gopkg\.in/yaml\.v([234])` at the head
of the text, as the regex of the text-substitution variant finds one. -/
def matchDeprAt (l : List Char) : Option (Char × List Char) :=
  match stripLead deprRootChars l with
  | some (d :: rest) =>
      if d = '2' ∨ d = '3' ∨ d = '4' then some (d, rest) else none
  | _ => none

/-- Models `re.MatchString` of the text-substitution variant. -/
def naiveMatches : List Char → Bool
  | [] => false
  | c :: rest => (matchDeprAt (c :: rest)).isSome || naiveMatches rest

/-- Models `re.ReplaceAllString(content, "go.yaml.in/yaml/v$1")`; the input
length serves as structural fuel (every match consumes at least one
character, so the fuel suffices). -/
def naiveReplaceFuel : Nat → List Char → List Char
  | 0, l => l
  | _ + 1, [] => []
  | fuel + 1, c :: rest =>
    match matchDeprAt (c :: rest) with
    | some (d, tail) => "go.yaml.in/yaml/v".data ++ d :: naiveReplaceFuel fuel tail
    | none => c :: naiveReplaceFuel fuel rest

/-- The full replacement pass of the text-substitution variant. -/
def naiveReplace (l : List Char) : List Char := naiveReplaceFuel l.length l

/-- Embeds the per-file logic of the text-substitution variant (the unnamed
source file, `process`, lines 79-108): the write performed on a matched
file, `none` when no write occurs. The dry-run flag of this variant is the
string compared against `"true"`. -/
def naiveVisitFile (dryRunFlag : String) (content : String) : Option String :=
  if naiveMatches content.data then
    if dryRunFlag = "true" then none
    else some ((naiveReplace content.data).asString)
  else none

end GoYamlMig

namespace GoYamlMig

/-! ### Helper lemmas -/

theorem asString_data (s : String) : s.data.asString = s := by
  cases s
  rfl

theorem strconvQuote_data (s : String) :
    (strconvQuote s).data = '"' :: (s.data ++ ['"']) := by
  have h : ("\"" : String).data = ['"'] := rfl
  unfold strconvQuote
  rw [String.data_append, String.data_append, h]
  rfl

theorem splitLast_concat (l : List Char) (a : Char) :
    splitLast (l ++ [a]) = some (l, a) := by
  induction l with
  | nil => rfl
  | cons c rest ih => simp [splitLast, ih]

theorem unquoteEsc_clean (l : List Char)
    (h : ∀ c ∈ l, ¬ c = '"' ∧ ¬ c = '\\') : unquoteEsc l = some l := by
  induction l with
  | nil => rfl
  | cons c rest ih =>
    have hc := h c (List.mem_cons_self c rest)
    have hrest : ∀ x ∈ rest, ¬ x = '"' ∧ ¬ x = '\\' :=
      fun x hx => h x (List.mem_cons_of_mem c hx)
    unfold unquoteEsc
    rw [if_neg hc.2, if_neg hc.1, ih hrest]
    rfl

theorem strconvUnquote_quote (P : String)
    (h : ∀ c ∈ P.data, ¬ c = '"' ∧ ¬ c = '\\') :
    strconvUnquote (strconvQuote P) = some P := by
  have hd := strconvQuote_data P
  have hlen : 2 ≤ (strconvQuote P).data.length := by
    rw [hd]
    simp
  have hhead : (strconvQuote P).data.head? = some '"' := by rw [hd]; rfl
  unfold strconvUnquote
  rw [if_pos ⟨hlen, Or.inl hhead⟩]
  have hu := unquoteEsc_clean P.data h
  simp [goUnquote, hd, splitLast_concat, hu, asString_data]

theorem modPathReMatch_cases {s m : String} (h : modPathReMatch s = some m) :
    (s = "gopkg.in/yaml.v2" ∧ m = "2") ∨ (s = "gopkg.in/yaml.v3" ∧ m = "3") ∨
      (s = "gopkg.in/yaml.v4" ∧ m = "4") := by
  unfold modPathReMatch at h
  by_cases h2 : s = "gopkg.in/yaml.v2"
  · rw [if_pos h2] at h
    exact Or.inl ⟨h2, (Option.some.inj h).symm⟩
  · rw [if_neg h2] at h
    by_cases h3 : s = "gopkg.in/yaml.v3"
    · rw [if_pos h3] at h
      exact Or.inr (Or.inl ⟨h3, (Option.some.inj h).symm⟩)
    · rw [if_neg h3] at h
      by_cases h4 : s = "gopkg.in/yaml.v4"
      · rw [if_pos h4] at h
        exact Or.inr (Or.inr ⟨h4, (Option.some.inj h).symm⟩)
      · rw [if_neg h4] at h
        exact absurd h (by simp)

theorem modPathReMatch_none {s : String} (h2 : ¬ s = "gopkg.in/yaml.v2")
    (h3 : ¬ s = "gopkg.in/yaml.v3") (h4 : ¬ s = "gopkg.in/yaml.v4") :
    modPathReMatch s = none := by
  unfold modPathReMatch
  rw [if_neg h2, if_neg h3, if_neg h4]

theorem rewriteImport_of_unquote_none {imp : ImportSpec}
    (h : strconvUnquote imp.pathValue = none) :
    rewriteImport imp = (imp, false) := by
  unfold rewriteImport
  rw [h]

theorem rewriteImport_of_match_none {imp : ImportSpec} {raw : String}
    (h : strconvUnquote imp.pathValue = some raw)
    (hm : modPathReMatch raw = none) :
    rewriteImport imp = (imp, false) := by
  unfold rewriteImport
  rw [h]
  dsimp only
  rw [hm]

theorem rewriteImport_nomatch {imp : ImportSpec}
    (h : ∀ r, strconvUnquote imp.pathValue = some r → modPathReMatch r = none) :
    rewriteImport imp = (imp, false) := by
  cases hu : strconvUnquote imp.pathValue with
  | none => exact rewriteImport_of_unquote_none hu
  | some raw => exact rewriteImport_of_match_none hu (h raw hu)

theorem rewriteImport_match {imp : ImportSpec} {raw d : String}
    (hu : strconvUnquote imp.pathValue = some raw)
    (hm : modPathReMatch raw = some d) :
    rewriteImport imp =
      (ImportSpec.mk (strconvQuote ("go.yaml.in/yaml/v" ++ d)), true) := by
  have hne : ¬ raw = "go.yaml.in/yaml/v" ++ d := by
    rcases modPathReMatch_cases hm with ⟨h1, hd⟩ | ⟨h1, hd⟩ | ⟨h1, hd⟩ <;>
      subst hd <;> rw [h1] <;> decide
  unfold rewriteImport
  rw [hu]
  dsimp only
  rw [hm]
  dsimp only
  rw [if_pos hne]

theorem rewriteImport_idem (imp : ImportSpec) :
    rewriteImport (rewriteImport imp).1 = ((rewriteImport imp).1, false) := by
  cases hu : strconvUnquote imp.pathValue with
  | none =>
    rw [rewriteImport_of_unquote_none hu]
    exact rewriteImport_of_unquote_none hu
  | some raw =>
    cases hm : modPathReMatch raw with
    | none =>
      rw [rewriteImport_of_match_none hu hm]
      exact rewriteImport_of_match_none hu hm
    | some d =>
      rw [rewriteImport_match hu hm]
      rcases modPathReMatch_cases hm with ⟨h1, h2⟩ | ⟨h1, h2⟩ | ⟨h1, h2⟩ <;>
        subst h2 <;> decide

theorem rewriteImports_fst (l : List ImportSpec) :
    (rewriteImports l).1 = l.map (fun i => (rewriteImport i).1) := by
  induction l with
  | nil => rfl
  | cons i is ih => simp [rewriteImports, ih]

theorem rewriteImports_idem (l : List ImportSpec) :
    rewriteImports (rewriteImports l).1 = ((rewriteImports l).1, false) := by
  induction l with
  | nil => rfl
  | cons i is ih =>
    show rewriteImports ((rewriteImport i).1 :: (rewriteImports is).1) = _
    unfold rewriteImports
    rw [rewriteImport_idem i, ih]
    rfl

theorem rewriteImports_nomatch (l : List ImportSpec)
    (h : ∀ imp ∈ l, ∀ r, strconvUnquote imp.pathValue = some r →
        modPathReMatch r = none) :
    rewriteImports l = (l, false) := by
  induction l with
  | nil => rfl
  | cons i is ih =>
    have hi := rewriteImport_nomatch (h i (List.mem_cons_self i is))
    have his := ih (fun imp hm r hr => h imp (List.mem_cons_of_mem i hm) r hr)
    unfold rewriteImports
    rw [hi, his]
    rfl

theorem rewriteRequire_nomatch {r : Require} (h : modPathReMatch r.path = none) :
    rewriteRequire r = (r, false) := by
  unfold rewriteRequire
  rw [h]

theorem rewriteRequire_match {r : Require} {d : String}
    (hm : modPathReMatch r.path = some d) :
    rewriteRequire r = ({ r with path := "go.yaml.in/yaml/v" ++ d }, true) := by
  have hne : ¬ r.path = "go.yaml.in/yaml/v" ++ d := by
    rcases modPathReMatch_cases hm with ⟨h1, hd⟩ | ⟨h1, hd⟩ | ⟨h1, hd⟩ <;>
      subst hd <;> rw [h1] <;> decide
  unfold rewriteRequire
  rw [hm]
  dsimp only
  rw [if_pos hne]

theorem rewriteRequire_idem (r : Require) :
    rewriteRequire (rewriteRequire r).1 = ((rewriteRequire r).1, false) := by
  cases hm : modPathReMatch r.path with
  | none =>
    rw [rewriteRequire_nomatch hm]
    exact rewriteRequire_nomatch hm
  | some d =>
    rw [rewriteRequire_match hm]
    apply rewriteRequire_nomatch
    show modPathReMatch ("go.yaml.in/yaml/v" ++ d) = none
    rcases modPathReMatch_cases hm with ⟨h1, h2⟩ | ⟨h1, h2⟩ | ⟨h1, h2⟩ <;> subst h2 <;>
      exact modPathReMatch_none (by decide) (by decide) (by decide)

theorem rewriteRequires_fst (l : List Require) :
    (rewriteRequires l).1 = l.map (fun r => (rewriteRequire r).1) := by
  induction l with
  | nil => rfl
  | cons r rs ih => simp [rewriteRequires, ih]

theorem rewriteRequires_idem (l : List Require) :
    rewriteRequires (rewriteRequires l).1 = ((rewriteRequires l).1, false) := by
  induction l with
  | nil => rfl
  | cons r rs ih =>
    show rewriteRequires ((rewriteRequire r).1 :: (rewriteRequires rs).1) = _
    unfold rewriteRequires
    rw [rewriteRequire_idem r, ih]
    rfl

theorem rewriteRequires_nomatch (l : List Require)
    (h : ∀ r ∈ l, modPathReMatch r.path = none) :
    rewriteRequires l = (l, false) := by
  induction l with
  | nil => rfl
  | cons r rs ih =>
    have hr := rewriteRequire_nomatch (h r (List.mem_cons_self r rs))
    have hrs := ih (fun x hx => h x (List.mem_cons_of_mem r hx))
    unfold rewriteRequires
    rw [hr, hrs]
    rfl

theorem nomatch_of_no_depr (imports : List ImportSpec)
    (h : ∀ imp ∈ imports, ∀ d ∈ (["2", "3", "4"] : List String),
        ¬ strconvUnquote imp.pathValue = some ("gopkg.in/yaml.v" ++ d)) :
    rewriteImports imports = (imports, false) := by
  apply rewriteImports_nomatch
  intro imp hmem r hr
  by_cases h2 : r = "gopkg.in/yaml.v2"
  · exfalso
    apply h imp hmem "2" (by simp)
    rw [hr, h2]
    decide
  by_cases h3 : r = "gopkg.in/yaml.v3"
  · exfalso
    apply h imp hmem "3" (by simp)
    rw [hr, h3]
    decide
  by_cases h4 : r = "gopkg.in/yaml.v4"
  · exfalso
    apply h imp hmem "4" (by simp)
    rw [hr, h4]
    decide
  exact modPathReMatch_none h2 h3 h4

theorem processGoFile_parse_error (pr : GoAst → Option String)
    (fm : String → Option String) (dryRun : Bool) (writeOk : String → Bool)
    (path : String) :
    processGoFile pr fm dryRun writeOk (SrcFile.mk path none) =
      Except.error ("parse file") := rfl

theorem processGoFile_unchanged (pr : GoAst → Option String)
    (fm : String → Option String) (dryRun : Bool) (writeOk : String → Bool)
    (path : String) (ast : GoAst)
    (h : (rewriteImports ast.imports).2 = false) :
    processGoFile pr fm dryRun writeOk (SrcFile.mk path (some ast)) =
      Except.ok (false, []) := by
  unfold processGoFile
  dsimp only
  rw [h]
  rfl

theorem processGoFile_write_error (pr : GoAst → Option String)
    (fm : String → Option String) (writeOk : String → Bool)
    (path : String) (ast : GoAst) (buf : String)
    (hch : (rewriteImports ast.imports).2 = true)
    (hpr : pr { ast with imports := (rewriteImports ast.imports).1 } = some buf)
    (hwok : writeOk path = false) :
    processGoFile pr fm false writeOk (SrcFile.mk path (some ast)) =
      Except.error ("write file") := by
  unfold processGoFile
  dsimp only
  rw [hch, if_pos rfl, hpr]
  dsimp only
  rw [hwok]
  rfl

theorem processGoFile_format_fallback (pr : GoAst → Option String)
    (fm : String → Option String) (writeOk : String → Bool)
    (path : String) (ast : GoAst) (buf : String)
    (hch : (rewriteImports ast.imports).2 = true)
    (hpr : pr { ast with imports := (rewriteImports ast.imports).1 } = some buf)
    (hfmt : fm buf = none)
    (hwok : writeOk path = true) :
    processGoFile pr fm false writeOk (SrcFile.mk path (some ast)) =
      Except.ok (true, [Event.writeGoFile path buf]) := by
  unfold processGoFile
  dsimp only
  rw [hch, if_pos rfl, hpr]
  dsimp only
  rw [hfmt, hwok]
  rfl

theorem processGoFile_dry (pr : GoAst → Option String)
    (fm : String → Option String) (writeOk : String → Bool) (f : SrcFile) :
    (∃ e, processGoFile pr fm true writeOk f = Except.error e) ∨
      ∃ c, processGoFile pr fm true writeOk f = Except.ok (c, []) := by
  obtain ⟨path, ast⟩ := f
  cases ast with
  | none => exact Or.inl ⟨"parse file", rfl⟩
  | some a =>
    by_cases hch : (rewriteImports a.imports).2 = true
    · cases hpr : pr { a with imports := (rewriteImports a.imports).1 } with
      | none =>
        left
        refine ⟨"printing AST", ?_⟩
        unfold processGoFile
        dsimp only
        rw [hch, if_pos rfl, hpr]
      | some buf =>
        right
        refine ⟨true, ?_⟩
        unfold processGoFile
        dsimp only
        rw [hch, if_pos rfl, hpr]
        rfl
    · right
      refine ⟨false, ?_⟩
      rw [Bool.not_eq_true] at hch
      exact processGoFile_unchanged pr fm true writeOk path a hch

theorem processGoFile_ok_false (pr : GoAst → Option String)
    (fm : String → Option String) (dryRun : Bool) (writeOk : String → Bool)
    (f : SrcFile) (evs : List Event)
    (h : processGoFile pr fm dryRun writeOk f = Except.ok (false, evs)) :
    evs = [] := by
  obtain ⟨path, ast⟩ := f
  cases ast with
  | none => exact absurd h (by unfold processGoFile; simp)
  | some a =>
    by_cases hch : (rewriteImports a.imports).2 = true
    · exfalso
      unfold processGoFile at h
      dsimp only at h
      rw [hch, if_pos rfl] at h
      cases hpr : pr { a with imports := (rewriteImports a.imports).1 } with
      | none => rw [hpr] at h; exact Except.noConfusion h
      | some buf =>
        rw [hpr] at h
        dsimp only at h
        cases dryRun with
        | true => simp at h
        | false =>
          by_cases hwok : writeOk path = true <;> simp [hwok] at h
    · rw [Bool.not_eq_true] at hch
      rw [processGoFile_unchanged pr fm dryRun writeOk path a hch] at h
      exact (Prod.mk.injEq .. ▸ Except.ok.inj h).2.symm

theorem processGoMod_unchanged (dryRun : Bool) (writeOk : String → Bool)
    (raw : String) (reqs : List Require)
    (h : (rewriteRequires reqs).2 = false) :
    processGoMod dryRun writeOk (GoModFile.mk raw (some reqs)) = Except.ok [] := by
  unfold processGoMod
  dsimp only
  rw [h]
  rfl

theorem processGoMod_dry (writeOk : String → Bool) (gm : GoModFile) :
    processGoMod true writeOk gm = Except.error ("parse go.mod") ∨
      processGoMod true writeOk gm = Except.ok [] := by
  obtain ⟨raw, parsed⟩ := gm
  cases parsed with
  | none => exact Or.inl rfl
  | some reqs =>
    by_cases hch : (rewriteRequires reqs).2 = true
    · right
      unfold processGoMod
      dsimp only
      rw [hch, if_pos rfl]
      rfl
    · right
      rw [Bool.not_eq_true] at hch
      exact processGoMod_unchanged true writeOk raw reqs hch

theorem processGoMod_ok_ne_nil (dryRun : Bool) (writeOk : String → Bool)
    (gm : GoModFile) (evs : List Event)
    (h : processGoMod dryRun writeOk gm = Except.ok evs) (hne : evs ≠ []) :
    ∃ reqs, gm.parsed = some reqs ∧ (rewriteRequires reqs).2 = true := by
  obtain ⟨raw, parsed⟩ := gm
  cases parsed with
  | none => exact absurd h (by unfold processGoMod; simp)
  | some reqs =>
    refine ⟨reqs, rfl, ?_⟩
    by_cases hch : (rewriteRequires reqs).2 = true
  
    · exact hch
    · exfalso
      rw [Bool.not_eq_true] at hch
      rw [processGoMod_unchanged dryRun writeOk raw reqs hch] at h
      exact hne (Except.ok.inj h).symm

theorem walkFiles_dry_writes (pr : GoAst → Option String)
    (fm : String → Option String) (writeOk : String → Bool)
    (files : List SrcFile) :
    (walkFiles pr fm true writeOk files).writes = [] := by
  induction files with
  | nil => rfl
  | cons f rest ih =>
    rcases processGoFile_dry pr fm writeOk f with ⟨e, he⟩ | ⟨c, hc⟩
    · unfold walkFiles
      rw [he]
    · unfold walkFiles
      rw [hc]
      dsimp only
      rw [ih]
      rfl

theorem walkFiles_abort (pr : GoAst → Option String)
    (fm : String → Option String) (dryRun : Bool) (writeOk : String → Bool)
    (pre : List SrcFile) (f : SrcFile) (post : List SrcFile) (e : String)
    (hpre : ∀ g ∈ pre, ∃ r, processGoFile pr fm dryRun writeOk g = Except.ok r)
    (hf : processGoFile pr fm dryRun writeOk f = Except.error e) :
    (walkFiles pr fm dryRun writeOk (pre ++ f :: post)).errored = some f.path ∧
      (walkFiles pr fm dryRun writeOk (pre ++ f :: post)).visited =
        pre.map SrcFile.path ++ [f.path] := by
  induction pre with
  | nil =>
    constructor
    · show (walkFiles pr fm dryRun writeOk (f :: post)).errored = some f.path
      unfold walkFiles
      rw [hf]
    · show (walkFiles pr fm dryRun writeOk (f :: post)).visited = [] ++ [f.path]
      unfold walkFiles
      rw [hf]
      rfl
  | cons g rest ih =>
    obtain ⟨⟨c, evs⟩, hg⟩ := hpre g (List.mem_cons_self g rest)
    have ih2 := ih (fun x hx => hpre x (List.mem_cons_of_mem g hx))
    constructor
    · show (walkFiles pr fm dryRun writeOk (g :: (rest ++ f :: post))).errored = _
      unfold walkFiles
      rw [hg]
      exact ih2.1
    · show (walkFiles pr fm dryRun writeOk (g :: (rest ++ f :: post))).visited = _
      unfold walkFiles
      rw [hg]
      dsimp only
      rw [ih2.2]
      rfl

theorem runBody_dry_writes (pr : GoAst → Option String)
    (fm : String → Option String) (writeOk : String → Bool) (p : Project) :
    (runBody pr fm true writeOk p).writes = [] := by
  have hw := walkFiles_dry_writes pr fm writeOk p.goFiles
  unfold runBody
  dsimp only
  cases herr : (walkFiles pr fm true writeOk p.goFiles).errored with
  | some x => exact hw
  | none =>
    cases p.goMod with
    | none => exact hw
    | some gm =>
      dsimp only
      rcases processGoMod_dry writeOk gm with hm | hm
      · rw [hm]
        exact hw
      · rw [hm]
        show (walkFiles pr fm true writeOk p.goFiles).writes ++ [] = []
        rw [hw]
        rfl

theorem compareGo_lt_122 (v : String) :
    compareGo v ("1.22") < 0 ↔
      (componentNum v 0 < 1 ∨ (componentNum v 0 = 1 ∧ componentNum v 1 < 22)) := by
  have h0 : atoiOr0 ((splitN3Dots ("1.22"))[0]?) = 1 := by decide
  have h1 : atoiOr0 ((splitN3Dots ("1.22"))[1]?) = 22 := by decide
  unfold compareGo componentNum
  dsimp only
  rw [h0, h1]
  by_cases e0 : atoiOr0 ((splitN3Dots v)[0]?) = 1
  · rw [if_neg (fun hx => hx e0), e0]
    by_cases e1 : atoiOr0 ((splitN3Dots v)[1]?) = 22
    · rw [if_neg (fun hx => hx e1), e1]
      constructor
      · intro hx
        exact absurd hx (by decide)
      · intro hx
        rcases hx with hx | ⟨_, hx⟩ <;> omega
    · rw [if_pos e1]
      by_cases e2 : atoiOr0 ((splitN3Dots v)[1]?) < 22
      · rw [if_pos e2]
        constructor
        · intro _
          exact Or.inr ⟨rfl, e2⟩
        · intro _
          decide
      · rw [if_neg e2]
        constructor
        · intro hx
          exact absurd hx (by decide)
        · intro hx
          rcases hx with hx | ⟨_, hx⟩ <;> omega
  · rw [if_pos e0]
    by_cases e2 : atoiOr0 ((splitN3Dots v)[0]?) < 1
    · rw [if_pos e2]
      constructor
      · intro _
        exact Or.inl e2
      · intro _
        decide
    · rw [if_neg e2]
      constructor
      · intro hx
        exact absurd hx (by decide)
      · intro hx
        rcases hx with hx | ⟨hx, _⟩ <;> omega

/-! ### Claim theorems -/

/-- Claim C1: for every import path string P, the rewrite replaces P if and
only if P is exactly `gopkg.in/yaml.v<d>` with d in 2, 3, 4 (a whole-path
match, not a substring occurrence inside a longer path), the replacement is
exactly `go.yaml.in/yaml/v<d>` with the same digit, and every other import
path is left unaltered. -/
theorem claim_C1_exact_path_rewrite (P : String)
    (hclean : ∀ c ∈ P.data, ¬ c = '"' ∧ ¬ c = '\\') :
    (∀ d ∈ (["2", "3", "4"] : List String), P = "gopkg.in/yaml.v" ++ d →
        rewriteImport (ImportSpec.mk (strconvQuote P)) =
          (ImportSpec.mk (strconvQuote ("go.yaml.in/yaml/v" ++ d)), true)) ∧
    ((∀ d ∈ (["2", "3", "4"] : List String), ¬ P = "gopkg.in/yaml.v" ++ d) →
        rewriteImport (ImportSpec.mk (strconvQuote P)) =
          (ImportSpec.mk (strconvQuote P), false)) := by
  constructor
  · intro d hd hP
    subst hP
    fin_cases hd <;> decide
  · intro hne
    have hu : strconvUnquote (ImportSpec.mk (strconvQuote P)).pathValue = some P :=
      strconvUnquote_quote P hclean
    have h2 : ¬ P = "gopkg.in/yaml.v2" := fun hx =>
      hne "2" (by simp) (by rw [hx]; decide)
    have h3 : ¬ P = "gopkg.in/yaml.v3" := fun hx =>
      hne "3" (by simp) (by rw [hx]; decide)
    have h4 : ¬ P = "gopkg.in/yaml.v4" := fun hx =>
      hne "4" (by simp) (by rw [hx]; decide)
    exact rewriteImport_of_match_none hu (modPathReMatch_none h2 h3 h4)

/-- Witness for C1 at the concrete path `gopkg.in/yaml.v3`. -/
theorem claim_C1_witness :
    rewriteImport (ImportSpec.mk (strconvQuote ("gopkg.in/yaml.v3"))) =
      (ImportSpec.mk (strconvQuote ("go.yaml.in/yaml/v" ++ "3")), true) :=
  (claim_C1_exact_path_rewrite ("gopkg.in/yaml.v3") (by decide)).1 "3" (by simp)
    (by decide)

/-- Claim C2: the rewrite is idempotent — a second pass over the output of a
first pass changes no import and no requirement entry, reports no change,
performs no write, and no replacement path `go.yaml.in/yaml/v<d>` matches
the deprecated pattern again. -/
theorem claim_C2_idempotent :
    (∀ imps : List ImportSpec,
        rewriteImports (rewriteImports imps).1 = ((rewriteImports imps).1, false)) ∧
    (∀ reqs : List Require,
        rewriteRequires (rewriteRequires reqs).1 =
          ((rewriteRequires reqs).1, false)) ∧
    (∀ d ∈ (["2", "3", "4"] : List String),
        modPathReMatch ("go.yaml.in/yaml/v" ++ d) = none) ∧
    (∀ (pr : GoAst → Option String) (fm : String → Option String)
        (dryRun : Bool) (writeOk : String → Bool) (path : String) (ast : GoAst),
        processGoFile pr fm dryRun writeOk
            (SrcFile.mk path
              (some { ast with imports := (rewriteImports ast.imports).1 })) =
          Except.ok (false, [])) ∧
    (∀ (dryRun : Bool) (writeOk : String → Bool) (raw : String)
        (reqs : List Require),
        processGoMod dryRun writeOk
            (GoModFile.mk raw (some (rewriteRequires reqs).1)) =
          Except.ok []) := by
  refine ⟨rewriteImports_idem, rewriteRequires_idem, ?_, ?_, ?_⟩
  · intro d hd
    fin_cases hd <;> decide
  · intro pr fm dryRun writeOk path ast
    apply processGoFile_unchanged
    show (rewriteImports (rewriteImports ast.imports).1).2 = false
    rw [rewriteImports_idem]
  · intro dryRun writeOk raw reqs
    apply processGoMod_unchanged
    rw [rewriteRequires_idem]

/-- Witness for C2: the concrete replacement path for digit 2 no longer
matches, and a concrete once-rewritten import list is a fixed point. -/
theorem claim_C2_witness :
    modPathReMatch ("go.yaml.in/yaml/v" ++ "2") = none ∧
      rewriteImports (rewriteImports [ImportSpec.mk ("\"gopkg.in/yaml.v2\"")]).1 =
        ((rewriteImports [ImportSpec.mk ("\"gopkg.in/yaml.v2\"")]).1, false) :=
  ⟨claim_C2_idempotent.2.2.1 "2" (by simp),
    claim_C2_idempotent.1 [ImportSpec.mk ("\"gopkg.in/yaml.v2\"")]⟩

/-- Claim C3: under the AST-matching policy, a file in which the deprecated
path occurs only outside the import declarations (the comments and body
string literals here are arbitrary and may contain it) is reported unchanged
and no write is performed; only import declarations are candidates. -/
theorem claim_C3_only_imports_rewritten (pr : GoAst → Option String)
    (fm : String → Option String) (dryRun : Bool) (writeOk : String → Bool)
    (path : String) (imports : List ImportSpec)
    (comments bodyStrings : List String)
    (h : ∀ imp ∈ imports, ∀ d ∈ (["2", "3", "4"] : List String),
        ¬ strconvUnquote imp.pathValue = some ("gopkg.in/yaml.v" ++ d)) :
    processGoFile pr fm dryRun writeOk
        (SrcFile.mk path (some (GoAst.mk imports comments bodyStrings))) =
      Except.ok (false, []) := by
  apply processGoFile_unchanged
  show (rewriteImports imports).2 = false
  rw [nomatch_of_no_depr imports h]

/-- Witness for C3: a file whose only import is `fmt`, while a comment and a
body string literal contain the deprecated path, is left unchanged. -/
theorem claim_C3_witness :
    processGoFile (fun _ => none) (fun _ => none) false (fun _ => true)
        (SrcFile.mk ("a.go") (some (GoAst.mk [ImportSpec.mk ("\"fmt\"")]
          ["uses gopkg.in/yaml.v2 internally"] ["gopkg.in/yaml.v3"]))) =
      Except.ok (false, []) :=
  claim_C3_only_imports_rewritten (fun _ => none) (fun _ => none) false
    (fun _ => true) ("a.go") [ImportSpec.mk ("\"fmt\"")]
    ["uses gopkg.in/yaml.v2 internally"] ["gopkg.in/yaml.v3"] (by decide)

/-- Claim C4: with dry-run enabled no write to storage ever occurs, for any
input tree and any match count: the whole run of the AST variant performs no
write, and the per-file step of the text-substitution variant performs
none. -/
theorem claim_C4_dry_run_no_writes :
    (∀ (pr : GoAst → Option String) (fm : String → Option String)
        (writeOk : String → Bool) (p : Project),
        (runTool pr fm true writeOk p).writes = []) ∧
    (∀ content : String, naiveVisitFile ("true") content = none) := by
  constructor
  · intro pr fm writeOk p
    unfold runTool
    by_cases hg : compareGo (readGoVersion (p.goMod.map GoModFile.raw)) ("1.22") < 0
    · rw [if_pos hg]
    · rw [if_neg hg]
      exact runBody_dry_writes pr fm writeOk p
  · intro content
    unfold naiveVisitFile
    by_cases hm : naiveMatches content.data = true
    · rw [if_pos hm, if_pos rfl]
    · rw [if_neg hm]

/-- Claim C5: the gate compares the declared toolchain version (the go.mod
go directive, `0.0` when go.mod is absent) against `1.22` numerically by
major then minor component with non-numeric components treated as zero;
strictly lower exits with code 1 before visiting or writing any file, and
otherwise the run proceeds to the migration body. -/
theorem claim_C5_version_gate (pr : GoAst → Option String)
    (fm : String → Option String) (dryRun : Bool) (writeOk : String → Bool)
    (p : Project) :
    (p.goMod = none → readGoVersion (p.goMod.map GoModFile.raw) = "0.0") ∧
    (∀ gm, p.goMod = some gm →
      goVersionLines (splitOnChar '\n' (GoModFile.raw gm).data) = none →
      readGoVersion (p.goMod.map GoModFile.raw) = "0.0") ∧
    (compareGo (readGoVersion (p.goMod.map GoModFile.raw)) ("1.22") < 0 ↔
      (componentNum (readGoVersion (p.goMod.map GoModFile.raw)) 0 < 1 ∨
        (componentNum (readGoVersion (p.goMod.map GoModFile.raw)) 0 = 1 ∧
          componentNum (readGoVersion (p.goMod.map GoModFile.raw)) 1 < 22))) ∧
    (compareGo (readGoVersion (p.goMod.map GoModFile.raw)) ("1.22") < 0 →
      runTool pr fm dryRun writeOk p =
        { exitCode := 1, visited := [], writes := [] }) ∧
    (¬ compareGo (readGoVersion (p.goMod.map GoModFile.raw)) ("1.22") < 0 →
      runTool pr fm dryRun writeOk p = runBody pr fm dryRun writeOk p) := by
  refine ⟨?_, ?_, compareGo_lt_122 _, ?_, ?_⟩
  · intro h
    rw [h]
    rfl
  · intro gm hgm hnone
    have hr : readGoVersion (some gm.raw) = "0.0" := by
      unfold readGoVersion
      dsimp only
      rw [hnone]
    rw [hgm]
    exact hr
  · intro h
    unfold runTool
    rw [if_pos h]
  · intro h
    unfold runTool
    rw [if_neg h]

/-- Witness for C5 at a project declaring `go 1.21`: the run exits with code
1 having visited and written nothing. -/
theorem claim_C5_witness :
    runTool (fun _ => none) (fun _ => none) false (fun _ => true)
        (Project.mk [SrcFile.mk ("a.go") (some (GoAst.mk [] [] []))]
          (some (GoModFile.mk ("module m\n\ngo 1.21\n") (some [])))) =
      { exitCode := 1, visited := [], writes := [] } :=
  (claim_C5_version_gate (fun _ => none) (fun _ => none) false (fun _ => true)
    (Project.mk [SrcFile.mk ("a.go") (some (GoAst.mk [] [] []))]
      (some (GoModFile.mk ("module m\n\ngo 1.21\n") (some []))))).2.2.2.1 (by decide)

/-- Claim C6: the manifest rewrite changes only the module-path field of
matching entries; the version of every entry and the indirect marker are
preserved, and non-matching entries are wholly untouched. -/
theorem claim_C6_manifest_frame :
    (∀ reqs : List Require,
        (rewriteRequires reqs).1 = reqs.map (fun r => (rewriteRequire r).1)) ∧
    (∀ r : Require, ((rewriteRequire r).1).version = r.version ∧
        ((rewriteRequire r).1).indirect = r.indirect) ∧
    (∀ r : Require, modPathReMatch r.path = none →
        rewriteRequire r = (r, false)) := by
  refine ⟨rewriteRequires_fst, ?_, fun r h => rewriteRequire_nomatch h⟩
  intro r
  cases hm : modPathReMatch r.path with
  | none =>
    rw [rewriteRequire_nomatch hm]
    exact ⟨rfl, rfl⟩
  | some d =>
    rw [rewriteRequire_match hm]
    exact ⟨rfl, rfl⟩

/-- Witness for C6: a concrete non-matching entry is wholly untouched. -/
theorem claim_C6_witness :
    rewriteRequire (Require.mk ("example.com/lib") ("v1.2.3") false) =
      (Require.mk ("example.com/lib") ("v1.2.3") false, false) :=
  claim_C6_manifest_frame.2.2 (Require.mk ("example.com/lib") ("v1.2.3") false)
    (by decide)

/-- Claim C7: for both rewriters a write happens only when some literal
changed: a source file none of whose imports matches is returned unchanged
with no write, a manifest none of whose entries matches produces no write,
an unchanged source outcome carries no write event, and a non-empty manifest
write implies the require list changed. -/
theorem claim_C7_write_only_on_change (pr : GoAst → Option String)
    (fm : String → Option String) (dryRun : Bool) (writeOk : String → Bool) :
    (∀ (path : String) (ast : GoAst),
        (∀ imp ∈ ast.imports, ∀ d ∈ (["2", "3", "4"] : List String),
          ¬ strconvUnquote imp.pathValue = some ("gopkg.in/yaml.v" ++ d)) →
        processGoFile pr fm dryRun writeOk (SrcFile.mk path (some ast)) =
          Except.ok (false, [])) ∧
    (∀ (raw : String) (reqs : List Require),
        (∀ r ∈ reqs, modPathReMatch r.path = none) →
        processGoMod dryRun writeOk (GoModFile.mk raw (some reqs)) =
          Except.ok []) ∧
    (∀ (f : SrcFile) (evs : List Event),
        processGoFile pr fm dryRun writeOk f = Except.ok (false, evs) →
        evs = []) ∧
    (∀ (gm : GoModFile) (evs : List Event),
        processGoMod dryRun writeOk gm = Except.ok evs → evs ≠ [] →
        ∃ reqs, gm.parsed = some reqs ∧ (rewriteRequires reqs).2 = true) := by
  refine ⟨?_, ?_, processGoFile_ok_false pr fm dryRun writeOk,
    processGoMod_ok_ne_nil dryRun writeOk⟩
  · intro path ast h
    apply processGoFile_unchanged
    rw [nomatch_of_no_depr ast.imports h]
  · intro raw reqs h
    apply processGoMod_unchanged
    rw [rewriteRequires_nomatch reqs h]

/-- Witness for C7: a file importing only `os` yields an unchanged result
and no write. -/
theorem claim_C7_witness :
    processGoFile (fun _ => none) (fun _ => none) false (fun _ => true)
        (SrcFile.mk ("b.go") (some (GoAst.mk [ImportSpec.mk ("\"os\"")] [] []))) =
      Except.ok (false, []) :=
  (claim_C7_write_only_on_change (fun _ => none) (fun _ => none) false
    (fun _ => true)).1 ("b.go") (GoAst.mk [ImportSpec.mk ("\"os\"")] [] [])
    (by decide)

/-- Claim C8: when parsing a visited source file fails, or writing a changed
file fails, the walk stops at that file — no later file is visited — and the
process exits with a non-zero code. -/
theorem claim_C8_fatal_aborts_walk (pr : GoAst → Option String)
    (fm : String → Option String) (dryRun : Bool) (writeOk : String → Bool)
    (p : Project) (pre post : List SrcFile) (f : SrcFile)
    (hgate : ¬ compareGo (readGoVersion (p.goMod.map GoModFile.raw)) ("1.22") < 0)
    (hsplit : p.goFiles = pre ++ f :: post)
    (hpre : ∀ g ∈ pre, ∃ r, processGoFile pr fm dryRun writeOk g = Except.ok r)
    (hfail :
      f.ast = none ∨
        ∃ ast buf, f.ast = some ast ∧ (rewriteImports ast.imports).2 = true ∧
          dryRun = false ∧
          pr { ast with imports := (rewriteImports ast.imports).1 } = some buf ∧
          writeOk f.path = false) :
    (runTool pr fm dryRun writeOk p).exitCode ≠ 0 ∧
      (runTool pr fm dryRun writeOk p).visited =
        pre.map SrcFile.path ++ [f.path] := by
  have herr : ∃ e, processGoFile pr fm dryRun writeOk f = Except.error e := by
    rcases hfail with h | ⟨ast, buf, hast, hch, hdr, hprn, hwok⟩
    · obtain ⟨fp, fast⟩ := f
      cases fast with
      | none => exact ⟨"parse file", rfl⟩
      | some a => exact absurd h (by simp)
    · subst hdr
      obtain ⟨fp, fast⟩ := f
      cases fast with
      | none => exact absurd hast (by simp)
      | some a =>
        have ha : a = ast := Option.some.inj hast
        subst ha
        exact ⟨"write file",
          processGoFile_write_error pr fm writeOk fp a buf hch hprn hwok⟩
  obtain ⟨e, he⟩ := herr
  have hw := walkFiles_abort pr fm dryRun writeOk pre f post e hpre he
  unfold runTool
  rw [if_neg hgate]
  unfold runBody
  dsimp only
  rw [hsplit, hw.1]
  exact ⟨Nat.one_ne_zero, hw.2⟩

/-- Witness for C8: a project passing the gate whose single file fails to
parse exits non-zero having visited only that file. -/
theorem claim_C8_witness :
    (runTool (fun _ => none) (fun _ => none) false (fun _ => true)
        (Project.mk [SrcFile.mk ("bad.go") none]
          (some (GoModFile.mk ("go 1.22\n") (some []))))).exitCode ≠ 0 ∧
      (runTool (fun _ => none) (fun _ => none) false (fun _ => true)
        (Project.mk [SrcFile.mk ("bad.go") none]
          (some (GoModFile.mk ("go 1.22\n") (some []))))).visited = ["bad.go"] :=
  claim_C8_fatal_aborts_walk (fun _ => none) (fun _ => none) false (fun _ => true)
    (Project.mk [SrcFile.mk ("bad.go") none]
      (some (GoModFile.mk ("go 1.22\n") (some []))))
    [] [] (SrcFile.mk ("bad.go") none)
    (by decide) rfl (by simp) (Or.inl rfl)

/-- Claim C9: when canonical formatting (`format.Source`) fails on a changed
file, the rewriter writes the raw printer output instead of aborting and
still reports the file as successfully changed. -/
theorem claim_C9_format_fallback (pr : GoAst → Option String)
    (fm : String → Option String) (writeOk : String → Bool)
    (path : String) (ast : GoAst) (buf : String)
    (hch : (rewriteImports ast.imports).2 = true)
    (hpr : pr { ast with imports := (rewriteImports ast.imports).1 } = some buf)
    (hfmt : fm buf = none)
    (hwok : writeOk path = true) :
    processGoFile pr fm false writeOk (SrcFile.mk path (some ast)) =
      Except.ok (true, [Event.writeGoFile path buf]) :=
  processGoFile_format_fallback pr fm writeOk path ast buf hch hpr hfmt hwok

/-- Witness for C9 on a one-import file, with a printer emitting `RAW` and a
failing formatter: the raw output is written and the file reported
changed. -/
theorem claim_C9_witness :
    processGoFile (fun _ => some ("RAW")) (fun _ => none) false (fun _ => true)
        (SrcFile.mk ("c.go")
          (some (GoAst.mk [ImportSpec.mk ("\"gopkg.in/yaml.v2\"")] [] []))) =
      Except.ok (true, [Event.writeGoFile ("c.go") ("RAW")]) :=
  claim_C9_format_fallback (fun _ => some ("RAW")) (fun _ => none)
    (fun _ => true) ("c.go")
    (GoAst.mk [ImportSpec.mk ("\"gopkg.in/yaml.v2\"")] [] []) ("RAW")
    (by decide) rfl rfl rfl

/-- Claim C10: an import literal not starting with a double or single quote
(such as a backquoted raw literal) is returned verbatim with its delimiters
by `strconvUnquote`, hence never matches the exact-path pattern and
the import is never rewritten; a quoted literal that fails to unquote is
silently skipped, not reported as an error. -/
theorem claim_C10_raw_and_failing_literals :
    (∀ s : String, ¬ s.data.head? = some '"' → ¬ s.data.head? = some '\'' →
        strconvUnquote s = some s) ∧
    (∀ s : String, s.data.head? = some backq →
        modPathReMatch s = none ∧
          rewriteImport (ImportSpec.mk s) = (ImportSpec.mk s, false)) ∧
    (rewriteImport (ImportSpec.mk ("`gopkg.in/yaml.v2`")) =
        (ImportSpec.mk ("`gopkg.in/yaml.v2`"), false)) ∧
    (∀ v : String, strconvUnquote v = none →
        rewriteImport (ImportSpec.mk v) = (ImportSpec.mk v, false)) := by
  have verb : ∀ s : String, ¬ s.data.head? = some '"' →
      ¬ s.data.head? = some '\'' → strconvUnquote s = some s := by
    intro s h1 h2
    have hcond : ¬ (2 ≤ s.data.length ∧
        (s.data.head? = some '"' ∨ s.data.head? = some '\'')) :=
      fun hx => hx.2.elim h1 h2
    unfold strconvUnquote
    rw [if_neg hcond]
  refine ⟨verb, ?_, by decide, fun v hv => rewriteImport_of_unquote_none hv⟩
  intro s hs
  have h1 : ¬ s.data.head? = some '"' := by
    rw [hs]
    decide
  have h2 : ¬ s.data.head? = some '\'' := by
    rw [hs]
    decide
  have hm : modPathReMatch s = none := by
    apply modPathReMatch_none <;> intro hx <;> rw [hx] at hs <;>
      exact absurd hs (by decide)
  exact ⟨hm, rewriteImport_of_match_none (verb s h1 h2) hm⟩

/-- Witness for C10 at a concrete backquoted literal. -/
theorem claim_C10_witness :
    modPathReMatch ("`gopkg.in/yaml.v3`") = none ∧
      rewriteImport (ImportSpec.mk ("`gopkg.in/yaml.v3`")) =
        (ImportSpec.mk ("`gopkg.in/yaml.v3`"), false) :=
  claim_C10_raw_and_failing_literals.2.1 ("`gopkg.in/yaml.v3`") (by decide)

end GoYamlMig
